import Mathlib

/-!
Verification of the adaptive batch-processing pipeline of the
git-commit-categories repository.

The definitions below are a shallow embedding of the TypeScript source:

* `commit-analyzer.ts` — `BatchManager` (adaptive batch sizing),
  `RateLimitManager.checkRateLimits`, `callLLMWithRetry`,
  `processCommitsInAdaptiveBatches`, `applyTransformRules`,
  `ConcurrencyLimiter`;
* `src/services/CacheService.ts` — `saveCache`;
* `src/utils/file.ts` — `writeJsonFile`.

JavaScript numbers holding the tuning factors (`growthFactor`,
`decayFactor`) are modelled as rationals; batch sizes and counters are
natural numbers.  `Math.max(min, Math.floor(x))` with a non-negative
`min : Nat` agrees with `max min (Int.toNat (Int.floor x))` in every case
(when `Math.floor x` is negative both sides give `min`), which is how the
sizing formulas are rendered below.
-/

set_option autoImplicit false

namespace GitCommitCategories

/-- Numeric floor of `n * q`, clamped to `Nat`.  Models the JavaScript
expression `Math.floor(n * q)` as it is used in `BatchManager`, where the
result always flows into `Math.max(minBatchSize, _)` with
`minBatchSize ≥ 0`, so clamping a negative floor to `0` never changes the
final value. -/
def floorMulNat (n : Nat) (q : ℚ) : Nat :=
  (Int.floor ((n : ℚ) * q)).toNat

/-- The tunables of `Config` (commit-analyzer.ts, lines 17–37) that the
batch-processing core reads.  The remaining fields (API key, model names,
URLs, …) never influence the verified control flow and are omitted. -/
structure Config where
  initialBatchSize : Nat
  minBatchSize : Nat
  maxBatchSize : Nat
  contextLimitThreshold : Nat
  maxRetries : Nat
  baseDelay : Nat
  growthFactor : ℚ
  decayFactor : ℚ
  successThreshold : Nat

/-- Mutable state of `BatchManager` (commit-analyzer.ts, lines 226–234). -/
structure BMState where
  currentBatchSize : Nat
  consecutiveSuccesses : Nat
  consecutiveFailures : Nat
  contextOverflowCount : Nat
deriving DecidableEq, Repr

/-- State of a freshly constructed `BatchManager`:
`currentBatchSize = config.initialBatchSize`, all counters zero. -/
def initialBMState (cfg : Config) : BMState :=
  { currentBatchSize := cfg.initialBatchSize
    consecutiveSuccesses := 0
    consecutiveFailures := 0
    contextOverflowCount := 0 }

/-- Embedding of `BatchManager.adjustBatchSize` (commit-analyzer.ts, lines 240–282),
as a pure state transformer.

* `contextOverflow` branch: increments `contextOverflowCount` **and**
  `consecutiveFailures` (lines 242–243), resets successes, decays the size.
* `success` branch: increments successes, resets failures; grows the size
  only when the incremented success count has reached `successThreshold`,
  the size is still below `maxBatchSize`, and the candidate size is a
  strict increase (lines 255–267).
* failure branch: increments failures, resets successes, decays with
  `min(0.8, decayFactor + 0.1 * consecutiveFailures)` where the failure
  count has already been incremented (lines 270–277). -/
def adjustBatchSize (cfg : Config) (s : BMState) (success : Bool)
    (contextOverflow : Bool) : BMState :=
  if contextOverflow then
    { currentBatchSize :=
        max cfg.minBatchSize (floorMulNat s.currentBatchSize cfg.decayFactor)
      consecutiveSuccesses := 0
      consecutiveFailures := s.consecutiveFailures + 1
      contextOverflowCount := s.contextOverflowCount + 1 }
  else if success then
    let s1 : BMState :=
      { s with
        consecutiveSuccesses := s.consecutiveSuccesses + 1
        consecutiveFailures := 0 }
    if s1.consecutiveSuccesses ≥ cfg.successThreshold ∧
        s1.currentBatchSize < cfg.maxBatchSize then
      let newSize :=
        min cfg.maxBatchSize (floorMulNat s1.currentBatchSize cfg.growthFactor)
      if newSize > s1.currentBatchSize then
        { s1 with currentBatchSize := newSize, consecutiveSuccesses := 0 }
      else s1
    else s1
  else
    let s1 : BMState :=
      { s with
        consecutiveFailures := s.consecutiveFailures + 1
        consecutiveSuccesses := 0 }
    let decayRate :=
      min (4/5 : ℚ) (cfg.decayFactor + (s1.consecutiveFailures : ℚ) * (1/10))
    { s1 with
      currentBatchSize :=
        max cfg.minBatchSize (floorMulNat s1.currentBatchSize decayRate) }

/-- Validity of the controller parameters as stated by the specification:
`min ≤ initial ≤ max`, `growthFactor > 1`, `0 < decayFactor < 1`,
`successThreshold ≥ 1`. -/
def validParams (cfg : Config) : Prop :=
  cfg.minBatchSize ≤ cfg.initialBatchSize ∧
  cfg.initialBatchSize ≤ cfg.maxBatchSize ∧
  1 < cfg.growthFactor ∧
  0 < cfg.decayFactor ∧ cfg.decayFactor < 1 ∧
  1 ≤ cfg.successThreshold

/-- Running a sequence of `adjustBatchSize` transitions (each a pair
`(success, contextOverflow)`) from the initial controller state. -/
def runTransitions (cfg : Config) (ts : List (Bool × Bool)) : BMState :=
  ts.foldl (fun s t => adjustBatchSize cfg s t.1 t.2) (initialBMState cfg)

/-! ### Rate limiting: `RateLimitManager.checkRateLimits` -/

/-- Embedding of `RateLimitInfo` (commit-analyzer.ts, lines 475–482).  Timestamps are
milliseconds since the epoch, modelled as integers. -/
structure RateLimitInfo where
  requestsThisMinute : Nat
  minuteStartTime : Int
  dailyRequests : Nat
  dayStartTime : Int
  creditsRemaining : Option Int
  isFreeTier : Bool
deriving DecidableEq, Repr

/-- Result of one `checkRateLimits` call: the updated rate state, the list
of sleep durations performed (in ms), and the quota error, if one was
thrown. -/
structure RateCheckResult where
  info : RateLimitInfo
  sleeps : List Int
  quotaError : Option String
deriving DecidableEq, Repr

/-- The free-tier daily request limit (commit-analyzer.ts, lines 523–526):
`1000` when at least `10` credits remain, else `50`.  The JavaScript
truthiness test `creditsRemaining && creditsRemaining >= 10` agrees with
the plain comparison because `0 ≥ 10` is false anyway. -/
def dailyLimitOf (creditsRemaining : Option Int) : Nat :=
  match creditsRemaining with
  | some c => if 10 ≤ c then 1000 else 50
  | none => 50

/-- Embedding of `RateLimitManager.checkRateLimits` (commit-analyzer.ts, lines
496–534), as a pure function of the current wall clock `now`.

The real code re-reads `Date.now()` after the minute-window sleep; that
second reading is modelled as `now + waitTime + 1000`, the time at which
the sleep of `waitTime + 1000` ms ends.  Note the order of the checks: the
minute-limit sleep happens **before** the daily-limit check. -/
def checkRateLimits (now : Int) (info0 : RateLimitInfo) : RateCheckResult :=
  let info1 :=
    if now - info0.minuteStartTime ≥ 60000 then
      { info0 with requestsThisMinute := 0, minuteStartTime := now }
    else info0
  let info2 :=
    if now - info1.dayStartTime ≥ 86400000 then
      { info1 with dailyRequests := 0, dayStartTime := now }
    else info1
  if info2.isFreeTier then
    let afterMinute :=
      if info2.requestsThisMinute ≥ 20 then
        let waitTime := 60000 - (now - info2.minuteStartTime)
        ({ info2 with
            requestsThisMinute := 0
            minuteStartTime := now + (waitTime + 1000) },
          [waitTime + 1000])
      else (info2, [])
    let info3 := afterMinute.1
    let dailyLimit := dailyLimitOf info3.creditsRemaining
    if info3.dailyRequests ≥ dailyLimit then
      { info := info3, sleeps := afterMinute.2
        quotaError := some "Daily rate limit exceeded" }
    else
      { info := info3, sleeps := afterMinute.2, quotaError := none }
  else
    { info := info2, sleeps := [], quotaError := none }

/-- Rate state used to refute C8: both the per-minute and the per-day
limits have been reached at once. -/
def c8Info : RateLimitInfo :=
  { requestsThisMinute := 20, minuteStartTime := 0
    dailyRequests := 50, dayStartTime := 0
    creditsRemaining := none, isFreeTier := true }

/-- Rate state used to witness the amended C8: the per-minute limit is
reached but the per-day count is still below its limit. -/
def c8bInfo : RateLimitInfo :=
  { requestsThisMinute := 20, minuteStartTime := 0
    dailyRequests := 10, dayStartTime := 0
    creditsRemaining := none, isFreeTier := true }

/-! ### Remote call with retry: `callLLMWithRetry` -/

/-- Outcome of one `fetch` of the classification endpoint: either an HTTP
response (with status code and body) or a thrown network error. -/
inductive FetchResult where
  | http (status : Nat) (body : String)
  | netThrow (msg : String)
deriving DecidableEq, Repr

/-- Final outcome of `callLLMWithRetry`: the returned content, or the
error that was ultimately thrown to the caller. -/
inductive CallResult where
  | ok (content : String)
  | error (msg : String)
deriving DecidableEq, Repr

/-- Embedding of `callLLMWithRetry` (commit-analyzer.ts, lines 578–652).  The remote
endpoint is abstracted as `responses : Nat → FetchResult`, indexed by the
`retryCount` of the attempt (the function recurses with `retryCount + 1`,
so each recursion depth performs exactly one fetch).  The result pairs the
surfaced outcome with the total number of fetch attempts performed.

Control flow mirrors the source exactly:

* a thrown `fetch` lands in the catch block, which retries while
  `retryCount < maxRetries` and otherwise rethrows;
* `response.ok` (status in `[200, 300)`) returns the body;
* status 429 retries inline while `retryCount < maxRetries`;
* status 402 throws `Insufficient credits - ...`, and any other non-ok
  status throws a generic HTTP error — both of these `throw`s sit
  **inside** the `try`, so the catch block retries them as well while
  `retryCount < maxRetries`.

Rate limiting (`checkRateLimits` / `recordRequest`) is modelled
separately and does not affect the retry control flow captured here. -/
def callLLMWithRetry (cfg : Config) (responses : Nat → FetchResult)
    (retryCount : Nat) : CallResult × Nat :=
  match responses retryCount with
  | .netThrow msg =>
    if _h : retryCount < cfg.maxRetries then
      let r := callLLMWithRetry cfg responses (retryCount + 1)
      (r.1, r.2 + 1)
    else (.error msg, 1)
  | .http status body =>
    if 200 ≤ status ∧ status < 300 then (.ok body, 1)
    else if _h2 : status = 429 ∧ retryCount < cfg.maxRetries then
      let r := callLLMWithRetry cfg responses (retryCount + 1)
      (r.1, r.2 + 1)
    else
      let errMsg :=
        if status = 402 then "Insufficient credits - please add credits to continue"
        else "HTTP error"
      if _h3 : retryCount < cfg.maxRetries then
        let r := callLLMWithRetry cfg responses (retryCount + 1)
        (r.1, r.2 + 1)
      else (.error errMsg, 1)
termination_by cfg.maxRetries - retryCount
decreasing_by all_goals omega

/-- Configuration used for the C1 failing input: `maxRetries = 2`. -/
def c1Cfg : Config :=
  { initialBatchSize := 16, minBatchSize := 2, maxBatchSize := 128
    contextLimitThreshold := 30000, maxRetries := 2, baseDelay := 500
    growthFactor := 3/2, decayFactor := 3/5, successThreshold := 2 }

/-- The remote endpoint of the C1 failing input: every attempt answers
HTTP 402 (insufficient credit). -/
def c1Responses : Nat → FetchResult := fun _ => .http 402 "insufficient"

/-! ### Commit data types -/

/-- Embedding of `RawCommit` (commit-analyzer.ts, lines 137–140). -/
structure RawCommit where
  hash : String
  message : String
deriving DecidableEq, Repr

/-- Embedding of `EnrichedCommit` (commit-analyzer.ts, lines 142–144). -/
structure EnrichedCommit where
  hash : String
  message : String
  diff : String
deriving DecidableEq, Repr

/-- Embedding of `ClassifiedCommit` (commit-analyzer.ts, lines 146–150).  The source's
optional `conformingPrefix` and `suggestedPrefix` fields are modelled as
the `Option`-valued `conformingLabel` and `suggestedLabel`. -/
structure ClassifiedCommit where
  hash : String
  message : String
  diff : String
  conformingLabel : Option String := none
  suggestedLabel : Option String := none
  reason : Option String := none
deriving DecidableEq, Repr

/-! ### Transform rules: `applyTransformRules` -/

/-- Embedding of `TransformRule` (commit-analyzer.ts, lines 152–156).  The regular
expression is abstracted by its observable behaviour: `test` models
`pattern.test(message)`, `replaceWith` models
`message.replace(pattern, replacement)`, and `capture1` models the first
capture group of `message.match(pattern)` (if the match or the group is
absent, `none`).  `replacement` is the raw replacement text. -/
structure TransformRule where
  test : String → Bool
  replaceWith : String → String
  replacement : String
  capture1 : String → Option String
  reason : String

/-- JavaScript `s.replace(':', '')` replaces only the **first** occurrence
of `':'`. -/
def removeFirstColon (s : String) : String :=
  match s.splitOn ":" with
  | [] => s
  | [x] => x
  | x :: rest => x ++ String.intercalate ":" rest

/-- The `for (const rule of rules) { if ... break }` loop in the body of
`applyTransformRules` (commit-analyzer.ts, lines 868–889): the first rule
whose pattern matches rewrites the message, sets `suggestedLabel` (with
the `$1` special case resolved from the first capture group, lowercased)
and the rule's reason, and stops; later rules are not consulted. -/
def applyRulesLoop (commit : RawCommit) (result : ClassifiedCommit) :
    List TransformRule → ClassifiedCommit
  | [] => result
  | rule :: rest =>
    if rule.test commit.message then
      let newMessage := rule.replaceWith commit.message
      let sug0 := (removeFirstColon rule.replacement).trim
      let sug :=
        if sug0 = "$1" then
          match rule.capture1 commit.message with
          | some m1 => m1.toLower
          | none => sug0
        else sug0
      { result with
        message := newMessage
        suggestedLabel := some sug
        reason := some rule.reason }
    else applyRulesLoop commit result rest

/-- Embedding of `applyTransformRules` (commit-analyzer.ts, lines 864–893). -/
def applyTransformRules (commits : List RawCommit) (rules : List TransformRule) :
    List ClassifiedCommit :=
  commits.map fun commit =>
    applyRulesLoop commit
      { hash := commit.hash, message := commit.message
        diff := "Rule application - no diff available" } rules

/-! ### The adaptive batch-processing loop -/

/-- State of the while-loop in `processCommitsInAdaptiveBatches`
(commit-analyzer.ts, lines 914–916): the cursor `i`, the batch manager,
the accumulated `classifiedCommits`, and `batchNumber`.  `calls` counts
the `classifyCommitsBatch` calls made so far; it indexes the abstract
classification oracle. -/
structure LoopState where
  i : Nat
  bm : BMState
  results : List ClassifiedCommit
  batchNumber : Nat
  calls : Nat
deriving Repr

/-- One iteration of the while-loop of `processCommitsInAdaptiveBatches`
(commit-analyzer.ts, lines 917–981), taken when `s.i < commits.length`.

The pre-flight size check
`estimateTokensAccurately(createClassificationPrompt(batch)) > config.contextLimitThreshold`
is abstracted as the pure predicate `overflows batch` (the estimator is a
deterministic function of the batch).  The awaited `classifyCommitsBatch`
call is abstracted as `classify k batch`, where `k` counts previous calls;
an `Except.error` result models a thrown exception, which lands in the
loop's catch block (lines 967–980).  Branches:

* pre-flight overflow: decay via `adjustBatchSize(false, true)`; if now at
  `minBatchSize` **and** the batch is a single commit, classify it with
  the diff truncated to 200 characters and advance the cursor by the batch
  length; otherwise `continue` without advancing (retry with a smaller
  batch);
* no overflow: classify; on success `adjustBatchSize(true)` and advance by
  `batch.length`;
* a thrown classification error: `adjustBatchSize(false)`; if now at
  `minBatchSize`, skip the batch (advance by `batch.length` without
  emitting results), else retry without advancing. -/
def loopStep (cfg : Config) (overflows : List EnrichedCommit → Bool)
    (classify : Nat → List EnrichedCommit → Except Unit (List ClassifiedCommit))
    (commits : List EnrichedCommit) (s : LoopState) : LoopState :=
  let batch := (commits.drop s.i).take s.bm.currentBatchSize
  if overflows batch then
    let bm1 := adjustBatchSize cfg s.bm false true
    if bm1.currentBatchSize = cfg.minBatchSize ∧ batch.length = 1 then
      let truncatedBatch := batch.map fun c => { c with diff := c.diff.take 200 }
      match classify s.calls truncatedBatch with
      | .ok rs =>
        { i := s.i + batch.length, bm := bm1, results := s.results ++ rs
          batchNumber := s.batchNumber + 1, calls := s.calls + 1 }
      | .error _ =>
        let bm2 := adjustBatchSize cfg bm1 false false
        if bm2.currentBatchSize = cfg.minBatchSize then
          { i := s.i + batch.length, bm := bm2, results := s.results
            batchNumber := s.batchNumber + 1, calls := s.calls + 1 }
        else
          { s with bm := bm2, calls := s.calls + 1 }
    else
      { s with bm := bm1 }
  else
    match classify s.calls batch with
    | .ok rs =>
      { i := s.i + batch.length, bm := adjustBatchSize cfg s.bm true false
        results := s.results ++ rs
        batchNumber := s.batchNumber + 1, calls := s.calls + 1 }
    | .error _ =>
      let bm1 := adjustBatchSize cfg s.bm false false
      if bm1.currentBatchSize = cfg.minBatchSize then
        { i := s.i + batch.length, bm := bm1, results := s.results
          batchNumber := s.batchNumber + 1, calls := s.calls + 1 }
      else
        { s with bm := bm1, calls := s.calls + 1 }

/-- The while-loop itself, with an explicit fuel bound: `none` means the
loop had not finished within `fuel` iterations. -/
def processLoop (cfg : Config) (overflows : List EnrichedCommit → Bool)
    (classify : Nat → List EnrichedCommit → Except Unit (List ClassifiedCommit))
    (commits : List EnrichedCommit) : Nat → LoopState → Option LoopState
  | 0, _ => none
  | fuel + 1, s =>
    if s.i < commits.length then
      processLoop cfg overflows classify commits fuel
        (loopStep cfg overflows classify commits s)
    else some s

/-- Loop state at the top of `processCommitsInAdaptiveBatches`:
`i = 0`, fresh batch manager, no results, `batchNumber = 1`. -/
def initialLoopState (cfg : Config) : LoopState :=
  { i := 0, bm := initialBMState cfg, results := [], batchNumber := 1, calls := 0 }

/-- Termination of the batch-processing loop: some finite fuel makes the
loop finish with the cursor at the end of the commit list. -/
def loopTerminates (cfg : Config) (overflows : List EnrichedCommit → Bool)
    (classify : Nat → List EnrichedCommit → Except Unit (List ClassifiedCommit))
    (commits : List EnrichedCommit) : Prop :=
  ∃ fuel s,
    processLoop cfg overflows classify commits fuel (initialLoopState cfg) = some s ∧
    s.i = commits.length

/-- Upper bound on the controller's batch size over a whole run. -/
def sizeBound (cfg : Config) : Nat := max cfg.initialBatchSize cfg.maxBatchSize

/-- Loop invariant: the cursor never passes the end of the list and the
batch size stays within `[minBatchSize, sizeBound]`. -/
def LoopInv (cfg : Config) (commits : List EnrichedCommit) (s : LoopState) : Prop :=
  s.i ≤ commits.length ∧ cfg.minBatchSize ≤ s.bm.currentBatchSize ∧
    s.bm.currentBatchSize ≤ sizeBound cfg

/-- Termination measure for the loop: lexicographic (remaining items,
current batch size), packed into one natural number. -/
def loopMeasure (cfg : Config) (commits : List EnrichedCommit) (s : LoopState) : Nat :=
  (commits.length - s.i) * (sizeBound cfg + 1) + s.bm.currentBatchSize

/-- Configuration of the C3 counterexample: `minBatchSize = 2` (the
source's default), initial size `2`. -/
def c3Cfg : Config :=
  { initialBatchSize := 2, minBatchSize := 2, maxBatchSize := 8
    contextLimitThreshold := 30000, maxRetries := 3, baseDelay := 500
    growthFactor := 3/2, decayFactor := 1/2, successThreshold := 2 }

/-- Two commits whose two-element batch keeps overflowing. -/
def c3Commits : List EnrichedCommit :=
  [{ hash := "aaaa", message := "first", diff := "big" },
   { hash := "bbbb", message := "second", diff := "big" }]

/-- A token estimator that reports every batch as oversized. -/
def alwaysOverflow : List EnrichedCommit → Bool := fun _ => true

/-- A classification oracle that never throws and echoes the batch
unclassified (as `classifyCommitsBatch` does after a remote failure). -/
def neverThrowClassify :
    Nat → List EnrichedCommit → Except Unit (List ClassifiedCommit) :=
  fun _ batch =>
    .ok (batch.map fun c => { hash := c.hash, message := c.message, diff := c.diff })

/-- An estimator that never reports an overflow (used as a witness
oracle). -/
def neverOverflow : List EnrichedCommit → Bool := fun _ => false

/-- Configuration used to witness the amended C3: `minBatchSize = 1`. -/
def c3wCfg : Config :=
  { initialBatchSize := 2, minBatchSize := 1, maxBatchSize := 8
    contextLimitThreshold := 30000, maxRetries := 3, baseDelay := 500
    growthFactor := 3/2, decayFactor := 1/2, successThreshold := 2 }

/-! ### Bounded concurrency: `ConcurrencyLimiter` -/

/-- Scheduling state of `ConcurrencyLimiter` (commit-analyzer.ts, lines
408–439, and src/utils/async.ts, lines 65–106): the `running` count, the
queue of pending task thunks, and — as observable history — the tasks that
have been started.  Tasks are identified by numbers.  `running` is an
integer so that the comparison `running < limit` is faithful for
non-positive limits. -/
structure LimiterState where
  running : Int
  queue : List Nat
  started : List Nat
deriving DecidableEq, Repr

/-- Embedding of `ConcurrencyLimiter.run` (the synchronous part of one call): if
`running < limit` the task executes immediately (`running++`, task
started), otherwise its thunk is appended to the queue.  Neither
implementation validates `limit`. -/
def limiterRun (limit : Int) (s : LimiterState) (task : Nat) : LimiterState :=
  if s.running < limit then
    { s with running := s.running + 1, started := s.started ++ [task] }
  else
    { s with queue := s.queue ++ [task] }

/-- The `finally` block of an executing task: `running--`, then the next
queued thunk (if any) is popped and executed (`running++`, task
started). -/
def limiterComplete (s : LimiterState) : LimiterState :=
  let s1 := { s with running := s.running - 1 }
  match s1.queue with
  | [] => s1
  | t :: rest =>
    { running := s1.running + 1, queue := rest, started := s1.started ++ [t] }

/-- Submitting a list of tasks to a fresh limiter, in order. -/
def limiterRunAll (limit : Int) (tasks : List Nat) : LimiterState :=
  tasks.foldl (limiterRun limit) { running := 0, queue := [], started := [] }

/-! ### Cache persistence: `saveCache` / `writeJsonFile` -/

/-- A file-system snapshot: file contents by path. -/
def FileSystem : Type := String → Option String

/-- Observable file-system operations performed by a save. -/
inductive FsOp where
  | copy (src dst : String)
  | write (path content : String)
  | rename (src dst : String)
deriving DecidableEq, Repr

/-- Embedding of `writeJsonFile` (src/utils/file.ts, lines 31–34): one direct
`fs.writeFile` of the serialized content to the destination path — no
temporary file and no rename. -/
def writeJsonFile (fs : FileSystem) (filePath : String) (content : String) :
    FileSystem × List FsOp :=
  (fun p => if p = filePath then some content else fs p,
    [FsOp.write filePath content])

/-- Embedding of `CacheService.BACKUP_CACHE_FILE` (CacheService.ts, line 18), after
path resolution (resolution itself is abstracted away). -/
def backupCachePath : String := ".gca-cache.backup.json"

/-- Embedding of `CacheService.saveCache` (src/services/CacheService.ts, lines 70–99).
`content` stands for the JSON serialization of the cache record (after
the in-place metadata update); `backupOk` models whether the
`fs.copyFile` backup succeeds — its failure is caught and ignored (lines
84–87), after which the save proceeds with `writeJsonFile`. -/
def saveCache (fs : FileSystem) (filePath : String) (content : String)
    (backupOk : Bool) : FileSystem × List FsOp :=
  let backupStep : FileSystem × List FsOp :=
    if (fs filePath).isSome then
      if backupOk then
        (fun p => if p = backupCachePath then fs filePath else fs p,
          [FsOp.copy filePath backupCachePath])
      else (fs, [])
    else (fs, [])
  let writeStep := writeJsonFile backupStep.1 filePath content
  (writeStep.1, backupStep.2 ++ writeStep.2)

/-- Spec-side predicate, following the claim's words: the operation trace
realizes a write-temp-then-rename save, i.e. some rename lands on the
destination. -/
def usesTempRename (ops : List FsOp) (dest : String) : Bool :=
  ops.any fun op =>
    match op with
    | .rename _ dst => dst = dest
    | _ => false

/-- File system of the C2 counterexample: the destination already holds a
prior cache file. -/
def c2Fs : FileSystem :=
  fun p => if p = "cache.json" then some "old" else none

/-! ### Concrete inputs for the controller claims -/

/-- Concrete configuration used to witness C5. -/
def c5Cfg : Config :=
  { initialBatchSize := 4, minBatchSize := 2, maxBatchSize := 8
    contextLimitThreshold := 30000, maxRetries := 3, baseDelay := 500
    growthFactor := 3/2, decayFactor := 1/2, successThreshold := 2 }

/-- Concrete configuration used to refute C6's frame claim. -/
def c6Cfg : Config :=
  { initialBatchSize := 4, minBatchSize := 2, maxBatchSize := 8
    contextLimitThreshold := 30000, maxRetries := 3, baseDelay := 500
    growthFactor := 3/2, decayFactor := 1/2, successThreshold := 2 }

/-- Concrete controller state used to refute C6's frame claim. -/
def c6State : BMState :=
  { currentBatchSize := 4, consecutiveSuccesses := 1
    consecutiveFailures := 0, contextOverflowCount := 0 }

/-- Concrete configuration used to refute C7: `maxBatchSize` equals the
current size and the success threshold is `1`. -/
def c7Cfg : Config :=
  { initialBatchSize := 10, minBatchSize := 1, maxBatchSize := 10
    contextLimitThreshold := 30000, maxRetries := 3, baseDelay := 500
    growthFactor := 3/2, decayFactor := 1/2, successThreshold := 1 }

/-- Concrete controller state used to refute C7: the size already sits at
`maxBatchSize`. -/
def c7State : BMState :=
  { currentBatchSize := 10, consecutiveSuccesses := 0
    consecutiveFailures := 0, contextOverflowCount := 0 }

end GitCommitCategories

namespace GitCommitCategories

/-! ### Helper lemmas about the sizing arithmetic -/

theorem floorMulNat_le_self (n : Nat) (q : ℚ) (hq : q ≤ 1) :
    floorMulNat n q ≤ n := by
  unfold floorMulNat
  rw [Int.toNat_le]
  have h1 : (n : ℚ) * q ≤ (n : ℚ) :=
    mul_le_of_le_one_right (Nat.cast_nonneg n) hq
  have h2 := Int.floor_le_floor h1
  simpa using h2

theorem floorMulNat_lt_self (n : Nat) (q : ℚ) (hn : 0 < n) (hq : q < 1) :
    floorMulNat n q < n := by
  unfold floorMulNat
  rw [Int.toNat_lt' (Nat.pos_iff_ne_zero.mp hn)]
  have hnq : (0 : ℚ) < (n : ℚ) := by exact_mod_cast hn
  have h1 : (n : ℚ) * q < (n : ℚ) := by
    calc (n : ℚ) * q < (n : ℚ) * 1 := by
          exact mul_lt_mul_of_pos_left hq hnq
      _ = (n : ℚ) := mul_one _
  exact Int.floor_lt.mpr (by exact_mod_cast h1)

/-- One `adjustBatchSize` transition keeps the batch size inside
`[minBatchSize, maxBatchSize]`. -/
theorem adjustBatchSize_preserves_bounds (cfg : Config) (hv : validParams cfg)
    (s : BMState) (h1 : cfg.minBatchSize ≤ s.currentBatchSize)
    (h2 : s.currentBatchSize ≤ cfg.maxBatchSize)
    (success contextOverflow : Bool) :
    cfg.minBatchSize ≤ (adjustBatchSize cfg s success contextOverflow).currentBatchSize ∧
    (adjustBatchSize cfg s success contextOverflow).currentBatchSize ≤ cfg.maxBatchSize := by
  obtain ⟨-, -, -, -, hd1, -⟩ := hv
  unfold adjustBatchSize
  by_cases ho : contextOverflow
  · simp only [ho, if_true]
    constructor
    · exact Nat.le_max_left _ _
    · have hfl : floorMulNat s.currentBatchSize cfg.decayFactor ≤ s.currentBatchSize :=
        floorMulNat_le_self _ _ (le_of_lt hd1)
      exact Nat.max_le.mpr ⟨h1.trans h2, hfl.trans h2⟩
  · simp only [ho, if_false]
    by_cases hs : success
    · simp only [hs, if_true]
      by_cases hcond : s.consecutiveSuccesses + 1 ≥ cfg.successThreshold ∧
          s.currentBatchSize < cfg.maxBatchSize
      · simp only [hcond, if_true]
        by_cases hgt : min cfg.maxBatchSize
            (floorMulNat s.currentBatchSize cfg.growthFactor) > s.currentBatchSize
        · simp only [hgt, if_true]
          exact ⟨h1.trans (le_of_lt hgt), Nat.min_le_left _ _⟩
        · simp only [hgt, if_false]
          exact ⟨h1, h2⟩
      · simp only [hcond, if_false]
        exact ⟨h1, h2⟩
    · simp only [hs, if_false]
      constructor
      · exact Nat.le_max_left _ _
      · have hrate : min (4/5 : ℚ)
            (cfg.decayFactor + ((s.consecutiveFailures + 1 : Nat) : ℚ) * (1/10)) ≤ 1 :=
          le_trans (min_le_left _ _) (by norm_num)
        have hfl := floorMulNat_le_self s.currentBatchSize _ hrate
        exact Nat.max_le.mpr ⟨h1.trans h2, hfl.trans h2⟩

theorem foldl_adjust_preserves_bounds (cfg : Config) (hv : validParams cfg) :
    ∀ (ts : List (Bool × Bool)) (s : BMState),
      cfg.minBatchSize ≤ s.currentBatchSize →
      s.currentBatchSize ≤ cfg.maxBatchSize →
      cfg.minBatchSize ≤
          (ts.foldl (fun s t => adjustBatchSize cfg s t.1 t.2) s).currentBatchSize ∧
        (ts.foldl (fun s t => adjustBatchSize cfg s t.1 t.2) s).currentBatchSize ≤
          cfg.maxBatchSize
  | [], s, h1, h2 => ⟨h1, h2⟩
  | t :: ts, s, h1, h2 => by
    have hstep := adjustBatchSize_preserves_bounds cfg hv s h1 h2 t.1 t.2
    exact foldl_adjust_preserves_bounds cfg hv ts _ hstep.1 hstep.2

/-! ### Claim theorems about the adaptive batch controller -/

/-- C5: for all valid controller parameters (`min ≤ initial ≤ max`,
`growthFactor > 1`, `0 < decayFactor < 1`, `successThreshold ≥ 1`), after
any sequence of `adjustBatchSize` transitions from the initial state, the
batch size satisfies `minBatchSize ≤ size ≤ maxBatchSize`. -/
theorem batch_size_always_within_bounds (cfg : Config) (ts : List (Bool × Bool))
    (hv : validParams cfg) :
    cfg.minBatchSize ≤ (runTransitions cfg ts).currentBatchSize ∧
    (runTransitions cfg ts).currentBatchSize ≤ cfg.maxBatchSize := by
  have h0 : cfg.minBatchSize ≤ (initialBMState cfg).currentBatchSize := hv.1
  have h0' : (initialBMState cfg).currentBatchSize ≤ cfg.maxBatchSize :=
    hv.2.1
  exact foldl_adjust_preserves_bounds cfg hv ts (initialBMState cfg) h0 h0'

/-- Witness for C5: evaluated on a concrete valid configuration and a
concrete transition sequence mixing success, failure and overflow. -/
theorem batch_size_always_within_bounds_witness :
    validParams c5Cfg ∧
    (c5Cfg.minBatchSize ≤
        (runTransitions c5Cfg
          [(true, false), (true, false), (false, true), (false, false)]).currentBatchSize ∧
      (runTransitions c5Cfg
          [(true, false), (true, false), (false, true), (false, false)]).currentBatchSize ≤
        c5Cfg.maxBatchSize) :=
  ⟨by norm_num [validParams, c5Cfg],
    batch_size_always_within_bounds c5Cfg
      [(true, false), (true, false), (false, true), (false, false)]
      (by norm_num [validParams, c5Cfg])⟩

/-- Exact effect of an overflow transition (helper shared by several
claims). -/
theorem adjustBatchSize_overflow_eq (cfg : Config) (s : BMState)
    (success : Bool) :
    adjustBatchSize cfg s success true =
      { currentBatchSize :=
          max cfg.minBatchSize (floorMulNat s.currentBatchSize cfg.decayFactor)
        consecutiveSuccesses := 0
        consecutiveFailures := s.consecutiveFailures + 1
        contextOverflowCount := s.contextOverflowCount + 1 } := by
  simp [adjustBatchSize]

/-- Exact effect of a success transition (helper shared by several
claims). -/
theorem adjustBatchSize_success_eq (cfg : Config) (s : BMState) :
    adjustBatchSize cfg s true false =
      (if s.consecutiveSuccesses + 1 ≥ cfg.successThreshold ∧
          s.currentBatchSize < cfg.maxBatchSize ∧
          s.currentBatchSize <
            min cfg.maxBatchSize (floorMulNat s.currentBatchSize cfg.growthFactor) then
        { currentBatchSize :=
            min cfg.maxBatchSize (floorMulNat s.currentBatchSize cfg.growthFactor)
          consecutiveSuccesses := 0
          consecutiveFailures := 0
          contextOverflowCount := s.contextOverflowCount }
      else
        { s with
          consecutiveSuccesses := s.consecutiveSuccesses + 1
          consecutiveFailures := 0 }) := by
  obtain ⟨sz, suc, fails, ovf⟩ := s
  simp only [adjustBatchSize]
  split_ifs <;> first | rfl | (exfalso; omega) | simp_all

/-- Exact effect of a failure (non-overflow) transition (helper shared by
several claims). -/
theorem adjustBatchSize_failure_eq (cfg : Config) (s : BMState) :
    adjustBatchSize cfg s false false =
      { currentBatchSize :=
          max cfg.minBatchSize (floorMulNat s.currentBatchSize
            (min (4/5 : ℚ)
              (cfg.decayFactor + ((s.consecutiveFailures + 1 : Nat) : ℚ) * (1/10))))
        consecutiveSuccesses := 0
        consecutiveFailures := s.consecutiveFailures + 1
        contextOverflowCount := s.contextOverflowCount } := by
  simp [adjustBatchSize]

/-- Counterexample to C6 as stated: an overflow transition does **not**
leave `consecutiveFailures` unchanged — `adjustBatchSize` increments it
(commit-analyzer.ts, line 243).  Here the failure counter moves from `0`
to `1` on an overflow transition whose batch succeeded. -/
theorem overflow_changes_consecutiveFailures :
    (adjustBatchSize c6Cfg c6State true true).consecutiveFailures ≠
      c6State.consecutiveFailures := by
  simp [adjustBatchSize, c6State]

/-- C6 (amended): an overflow transition, regardless of the success flag,
performs exactly these state changes and no others: the size becomes
`max(min, floor(size * decayFactor))`, `consecutiveSuccesses` is reset to
`0`, `overflowCount` is incremented, **and `consecutiveFailures` is
incremented**. -/
theorem overflow_transition_exact_effect (cfg : Config) (s : BMState)
    (success : Bool) :
    adjustBatchSize cfg s success true =
      { currentBatchSize :=
          max cfg.minBatchSize (floorMulNat s.currentBatchSize cfg.decayFactor)
        consecutiveSuccesses := 0
        consecutiveFailures := s.consecutiveFailures + 1
        contextOverflowCount := s.contextOverflowCount + 1 } :=
  adjustBatchSize_overflow_eq cfg s success

/-- Counterexample to C7 as stated: with the size already at
`maxBatchSize`, a success transition reaches the success threshold
(`0 + 1 ≥ 1`), so by the claim growth fires and `consecutiveSuccesses`
must be reset to `0`; the code's extra guard `size < maxBatchSize`
(commit-analyzer.ts, line 257) prevents both the growth and the reset, and
the counter is left at `1`. -/
theorem growth_iff_threshold_fails_at_max :
    c7State.consecutiveSuccesses + 1 ≥ c7Cfg.successThreshold ∧
    (adjustBatchSize c7Cfg c7State true false).consecutiveSuccesses ≠ 0 := by
  constructor
  · norm_num [c7State, c7Cfg]
  · simp [adjustBatchSize, c7State, c7Cfg]

/-- C7 (amended): a success transition increments `consecutiveSuccesses`
and resets `consecutiveFailures` to `0`; growth fires if and only if the
incremented success count has reached `successThreshold` **and** the size
is still below `maxBatchSize` **and** the clamped candidate
`min(max, floor(size * growthFactor))` strictly exceeds the current size;
when it fires, the size becomes that candidate and `consecutiveSuccesses`
is reset to `0`.  In particular growth never fires before the threshold is
reached. -/
theorem success_transition_exact_effect (cfg : Config) (s : BMState) :
    adjustBatchSize cfg s true false =
      (if s.consecutiveSuccesses + 1 ≥ cfg.successThreshold ∧
          s.currentBatchSize < cfg.maxBatchSize ∧
          s.currentBatchSize <
            min cfg.maxBatchSize (floorMulNat s.currentBatchSize cfg.growthFactor) then
        { currentBatchSize :=
            min cfg.maxBatchSize (floorMulNat s.currentBatchSize cfg.growthFactor)
          consecutiveSuccesses := 0
          consecutiveFailures := 0
          contextOverflowCount := s.contextOverflowCount }
      else
        { s with
          consecutiveSuccesses := s.consecutiveSuccesses + 1
          consecutiveFailures := 0 }) :=
  adjustBatchSize_success_eq cfg s

/-! ### Claim theorems about the retrying remote call (C1) -/

set_option maxRecDepth 4000

/-- C1 (divergence from the claim): with `maxRetries = 2` and a remote
endpoint answering HTTP 402 (insufficient credit) on every attempt,
`callLLMWithRetry` performs **three** fetch attempts — the 402 `throw`
sits inside the `try` block, so the generic catch retries it until the
retry budget is exhausted — and only then surfaces the
insufficient-credits error.  The claim requires a single attempt and no
retry, which the code's own abort message also indicates was the
intent. -/
theorem terminal_402_is_retried :
    callLLMWithRetry c1Cfg c1Responses 0 =
      (.error "Insufficient credits - please add credits to continue", 3) := by
  rw [callLLMWithRetry, callLLMWithRetry, callLLMWithRetry]
  norm_num [c1Responses, c1Cfg]

/-! ### Claim theorems about rate limiting (C8) -/

/-- Counterexample to C8 as stated: from a state where both the per-minute
and the per-day free-tier limits have been reached, `checkRateLimits`
first performs the minute-window sleep (60000 ms here) and only then
throws the daily quota error — the daily-limit failure is not sleep-free.
(commit-analyzer.ts runs the minute check, lines 514–520, before the daily
check, lines 523–532.) -/
theorem daily_limit_error_can_sleep_first :
    (checkRateLimits 1000 c8Info).sleeps = [60000] ∧
    (checkRateLimits 1000 c8Info).quotaError = some "Daily rate limit exceeded" := by
  constructor <;> rfl

/-- C8 (amended): on the free tier with both windows still current,
(1) if the per-minute count is below the minute limit and the per-day
count has reached the daily limit, the call throws the quota error without
any sleep; (2) if the per-minute count has reached the minute limit and
the per-day count is below the daily limit, the call sleeps the remaining
minute window plus a 1000 ms buffer, resets the minute counter and returns
without error; (3) if both limits are reached, the call sleeps **and**
then throws the quota error — so the fail-fast-without-sleep behaviour
holds only when the minute limit is not simultaneously reached. -/
theorem checkRateLimits_order_of_limits (now : Int) (info : RateLimitInfo)
    (hfree : info.isFreeTier = true)
    (hmin : now - info.minuteStartTime < 60000)
    (hday : now - info.dayStartTime < 86400000) :
    (info.requestsThisMinute < 20 →
      dailyLimitOf info.creditsRemaining ≤ info.dailyRequests →
      (checkRateLimits now info).sleeps = [] ∧
      (checkRateLimits now info).quotaError = some "Daily rate limit exceeded") ∧
    (20 ≤ info.requestsThisMinute →
      info.dailyRequests < dailyLimitOf info.creditsRemaining →
      (checkRateLimits now info).sleeps =
          [60000 - (now - info.minuteStartTime) + 1000] ∧
      (checkRateLimits now info).quotaError = none ∧
      (checkRateLimits now info).info.requestsThisMinute = 0) ∧
    (20 ≤ info.requestsThisMinute →
      dailyLimitOf info.creditsRemaining ≤ info.dailyRequests →
      (checkRateLimits now info).sleeps ≠ [] ∧
      (checkRateLimits now info).quotaError = some "Daily rate limit exceeded") := by
  have hroll1 : ¬ (now - info.minuteStartTime ≥ 60000) := by omega
  have hroll2 : ¬ (now - info.dayStartTime ≥ 86400000) := by omega
  refine ⟨fun h1 h2 => ?_, fun h1 h2 => ?_, fun h1 h2 => ?_⟩
  · have h1' : ¬ (info.requestsThisMinute ≥ 20) := by omega
    simp [checkRateLimits, hroll1, hroll2, hfree, h1', h2]
  · have h2' : ¬ (info.dailyRequests ≥ dailyLimitOf info.creditsRemaining) := by
      omega
    simp [checkRateLimits, hroll1, hroll2, hfree, h1, h2']
  · simp [checkRateLimits, hroll1, hroll2, hfree, h1, h2]

/-- Witness for the amended C8, case (2): per-minute limit reached, daily
count below its limit — a sleep of `60000 - (1000 - 0) + 1000 = 60000` ms,
no error, minute counter reset. -/
theorem checkRateLimits_order_witness :
    (checkRateLimits 1000 c8bInfo).sleeps = [60000] ∧
    (checkRateLimits 1000 c8bInfo).quotaError = none ∧
    (checkRateLimits 1000 c8bInfo).info.requestsThisMinute = 0 := by
  have h := (checkRateLimits_order_of_limits 1000 c8bInfo rfl
      (by norm_num [c8bInfo]) (by norm_num [c8bInfo])).2.1
      (by norm_num [c8bInfo]) (by norm_num [c8bInfo, dailyLimitOf])
  simpa [c8bInfo] using h

/-! ### Claim theorems about rule application (C10) -/

/-- The message produced by the rule loop is determined by the first
matching rule (helper). -/
theorem applyRulesLoop_message (commit : RawCommit) (result : ClassifiedCommit) :
    ∀ rules : List TransformRule,
      (applyRulesLoop commit result rules).message =
        match rules.find? (fun r => r.test commit.message) with
        | some r => r.replaceWith commit.message
        | none => result.message
  | [] => rfl
  | rule :: rest => by
    cases hb : rule.test commit.message with
    | true => simp [applyRulesLoop, hb, List.find?_cons]
    | false =>
      simp [applyRulesLoop, hb, List.find?_cons,
        applyRulesLoop_message commit result rest]

/-- The rule loop never changes the hash (helper). -/
theorem applyRulesLoop_hash (commit : RawCommit) (result : ClassifiedCommit) :
    ∀ rules : List TransformRule,
      (applyRulesLoop commit result rules).hash = result.hash
  | [] => rfl
  | rule :: rest => by
    cases hb : rule.test commit.message with
    | true => simp [applyRulesLoop, hb]
    | false => simp [applyRulesLoop, hb, applyRulesLoop_hash commit result rest]

/-- C10: `applyTransformRules` returns a list of the same length and in
the same order as its input (position `i` of the output is the transform
of position `i` of the input, witnessed by the preserved hash), and for
each commit it applies at most one rule — the first rule in the list whose
pattern matches the commit's message, which rewrites the message — while a
commit matched by no rule keeps its message unchanged. -/
theorem applyTransformRules_first_match_only (commits : List RawCommit)
    (rules : List TransformRule) :
    (applyTransformRules commits rules).length = commits.length ∧
    ∀ i : Nat,
      ((applyTransformRules commits rules)[i]?).map (fun out => out.hash) =
        (commits[i]?).map (fun c => c.hash) ∧
      ((applyTransformRules commits rules)[i]?).map (fun out => out.message) =
        (commits[i]?).map (fun c =>
          match rules.find? (fun r => r.test c.message) with
          | some r => r.replaceWith c.message
          | none => c.message) := by
  refine ⟨by simp [applyTransformRules], fun i => ?_⟩
  constructor
  · simp only [applyTransformRules, List.getElem?_map]
    cases commits[i]? with
    | none => rfl
    | some c => simp [applyRulesLoop_hash]
  · simp only [applyTransformRules, List.getElem?_map]
    cases commits[i]? with
    | none => rfl
    | some c => simp [applyRulesLoop_message]

/-! ### Claim theorems about the concurrency limiter (C9) -/

/-- With a non-positive limit, submissions only ever queue (helper). -/
theorem limiterRun_foldl_nonpos (limit : Int) (hlim : limit ≤ 0) :
    ∀ (tasks : List Nat) (s : LimiterState), s.running = 0 →
      tasks.foldl (limiterRun limit) s = { s with queue := s.queue ++ tasks }
  | [], s, _ => by simp
  | t :: ts, s, h => by
    have hn : ¬ (s.running < limit) := by omega
    have hrec := limiterRun_foldl_nonpos limit hlim ts
      { s with queue := s.queue ++ [t] } h
    simp [List.foldl, limiterRun, hn, hrec]

/-- Counterexample to C9 as stated: constructing a limiter with
`limit = 0` and running a task is **not** an input-validation error — the
embedding is total because neither implementation has a validation or
error path — and the submitted task ends up queued, never started. -/
theorem limiter_zero_limit_silently_queues :
    limiterRunAll 0 [1] = { running := 0, queue := [1], started := [] } := by
  rfl

/-- C9 (amended): neither `ConcurrencyLimiter` implementation validates
its limit.  With `limit ≤ 0`, every submitted task is appended to the
queue and none is ever started (a queued thunk is only popped in the
`finally` block of a started task, and nothing ever starts), so the tasks
are silently left unscheduled rather than rejected. -/
theorem limiter_nonpositive_limit_starts_nothing (limit : Int)
    (tasks : List Nat) (hlim : limit ≤ 0) :
    (limiterRunAll limit tasks).started = [] ∧
    (limiterRunAll limit tasks).queue = tasks ∧
    (limiterRunAll limit tasks).running = 0 := by
  have h := limiterRun_foldl_nonpos limit hlim tasks
    { running := 0, queue := [], started := [] } rfl
  simp [limiterRunAll, h]

/-- Witness for the amended C9 at the concrete limit `-1` and two
tasks. -/
theorem limiter_nonpositive_limit_starts_nothing_witness :
    ((-1 : Int) ≤ 0) ∧
    ((limiterRunAll (-1) [1, 2]).started = [] ∧
      (limiterRunAll (-1) [1, 2]).queue = [1, 2] ∧
      (limiterRunAll (-1) [1, 2]).running = 0) :=
  ⟨by decide, limiter_nonpositive_limit_starts_nothing (-1) [1, 2] (by decide)⟩

/-! ### Claim theorems about cache persistence (C2) -/

/-- Counterexample to C2 as stated: a concrete save over an existing
cache file performs exactly a backup copy followed by one **direct**
write of the destination — there is no write to a sibling temporary path
and no rename onto the destination. -/
theorem saveCache_trace_has_no_rename :
    (saveCache c2Fs "cache.json" "new" true).2 =
      [FsOp.copy "cache.json" backupCachePath, FsOp.write "cache.json" "new"] ∧
    usesTempRename (saveCache c2Fs "cache.json" "new" true).2 "cache.json" = false := by
  constructor <;> rfl

/-- C2 (amended): `saveCache` writes the serialized record **directly**
to the destination path with a single `writeFile` — no sibling temporary
file and no rename, so the write-temp-then-rename atomicity described by
the claim is not implemented — while the backup clause holds as stated:
when the destination already exists, the prior file is first copied to
the `.backup` path on a best-effort basis, and a failed backup does not
block the save (the destination still ends up holding the new
content). -/
theorem saveCache_direct_write_and_backup (fs : FileSystem)
    (filePath content : String) (backupOk : Bool)
    (hpath : filePath ≠ backupCachePath) :
    (saveCache fs filePath content backupOk).1 filePath = some content ∧
    (backupOk = true → (fs filePath).isSome = true →
      (saveCache fs filePath content backupOk).1 backupCachePath = fs filePath) ∧
    (backupOk = false →
      (saveCache fs filePath content backupOk).1 filePath = some content) ∧
    usesTempRename (saveCache fs filePath content backupOk).2 filePath = false := by
  have hpath' : ¬ (backupCachePath = filePath) := fun h => hpath h.symm
  refine ⟨?_, fun hb hex => ?_, fun _ => ?_, ?_⟩
  · simp [saveCache, writeJsonFile]
  · simp [saveCache, writeJsonFile, hb, hex, hpath']
  · simp [saveCache, writeJsonFile]
  · by_cases hex : (fs filePath).isSome = true
    · by_cases hb : backupOk = true
      · simp [saveCache, writeJsonFile, usesTempRename, hex, hb]
      · simp [saveCache, writeJsonFile, usesTempRename, hex, hb]
    · simp [saveCache, writeJsonFile, usesTempRename, hex]

/-- Witness for the amended C2 at a concrete file system: the
destination gets the new content, the backup holds the old content, and
the trace has no rename. -/
theorem saveCache_direct_write_and_backup_witness :
    (saveCache c2Fs "cache.json" "new" true).1 "cache.json" = some "new" ∧
    (saveCache c2Fs "cache.json" "new" true).1 backupCachePath = some "old" ∧
    usesTempRename (saveCache c2Fs "cache.json" "new" true).2 "cache.json" = false := by
  have h := saveCache_direct_write_and_backup c2Fs "cache.json" "new" true (by decide)
  refine ⟨h.1, ?_, h.2.2.2⟩
  have h2 := h.2.1 rfl rfl
  simpa [c2Fs] using h2

/-! ### Claim theorems about cursor advancement (C4) -/

/-- C4: the cursor into the commit list advances by exactly the number of
commits actually contained in the batch just processed — the length of
`commits.slice(i, i + batchSize)`, which near the end of the list is
smaller than the requested batch size — and a pre-flight overflow
rejection that retries with a smaller batch does not advance the cursor at
all; every step either advances by exactly the actual batch length or not
at all. -/
theorem cursor_advances_by_actual_batch_length (cfg : Config)
    (overflows : List EnrichedCommit → Bool)
    (classify : Nat → List EnrichedCommit → Except Unit (List ClassifiedCommit))
    (commits : List EnrichedCommit) (s : LoopState) :
    ((loopStep cfg overflows classify commits s).i =
        s.i + ((commits.drop s.i).take s.bm.currentBatchSize).length ∨
      (loopStep cfg overflows classify commits s).i = s.i) ∧
    (overflows ((commits.drop s.i).take s.bm.currentBatchSize) = false →
      ∀ rs, classify s.calls ((commits.drop s.i).take s.bm.currentBatchSize) =
          Except.ok rs →
        (loopStep cfg overflows classify commits s).i =
          s.i + ((commits.drop s.i).take s.bm.currentBatchSize).length) ∧
    (overflows ((commits.drop s.i).take s.bm.currentBatchSize) = true →
      ¬ ((adjustBatchSize cfg s.bm false true).currentBatchSize = cfg.minBatchSize ∧
          ((commits.drop s.i).take s.bm.currentBatchSize).length = 1) →
      (loopStep cfg overflows classify commits s).i = s.i) := by
  refine ⟨?_, fun hov rs hcl => ?_, fun hov hg => ?_⟩
  · by_cases hov : overflows ((commits.drop s.i).take s.bm.currentBatchSize) = true
    · by_cases hg : (adjustBatchSize cfg s.bm false true).currentBatchSize =
            cfg.minBatchSize ∧
          ((commits.drop s.i).take s.bm.currentBatchSize).length = 1
      · cases hcl : classify s.calls
            (((commits.drop s.i).take s.bm.currentBatchSize).map
              fun c => { c with diff := c.diff.take 200 }) with
        | ok rs =>
          left
          simp only [loopStep]
          rw [if_pos hov, if_pos hg, hcl]
        | error e =>
          by_cases hm : (adjustBatchSize cfg
                (adjustBatchSize cfg s.bm false true) false false).currentBatchSize =
              cfg.minBatchSize
          · left
            simp only [loopStep]
            rw [if_pos hov, if_pos hg, hcl, if_pos hm]
          · right
            simp only [loopStep]
            rw [if_pos hov, if_pos hg, hcl, if_neg hm]
      · right
        simp only [loopStep]
        rw [if_pos hov, if_neg hg]
    · cases hcl : classify s.calls ((commits.drop s.i).take s.bm.currentBatchSize) with
      | ok rs =>
        left
        simp only [loopStep]
        rw [if_neg hov, hcl]
      | error e =>
        by_cases hm : (adjustBatchSize cfg s.bm false false).currentBatchSize =
            cfg.minBatchSize
        · left
          simp only [loopStep]
          rw [if_neg hov, hcl, if_pos hm]
        · right
          simp only [loopStep]
          rw [if_neg hov, hcl, if_neg hm]
  · simp only [loopStep]
    rw [if_neg (by simp [hov]), hcl]
  · simp only [loopStep]
    rw [if_pos hov, if_neg hg]

/-! ### Claim theorems about loop termination (C3) -/

/-- Evaluation helper: `floor(2 * 0.5) = 1`. -/
theorem floorMulNat_two_half : floorMulNat 2 (1/2 : ℚ) = 1 := by
  unfold floorMulNat
  have h : (((2 : Nat) : ℚ) * (1/2)) = 1 := by norm_num
  rw [h, Int.floor_one]
  rfl

/-- With the default `minBatchSize = 2` and a two-commit batch that keeps
overflowing, every loop iteration leaves the cursor at `0` and the batch
size at `2`, so no amount of fuel finishes the loop (helper). -/
theorem c3_stuck_aux :
    ∀ (fuel : Nat) (s : LoopState), s.i = 0 → s.bm.currentBatchSize = 2 →
      processLoop c3Cfg alwaysOverflow neverThrowClassify c3Commits fuel s = none
  | 0, _, _, _ => rfl
  | fuel + 1, s, h0, h2 => by
    have hstep0 :
        (loopStep c3Cfg alwaysOverflow neverThrowClassify c3Commits s).i = 0 ∧
        (loopStep c3Cfg alwaysOverflow neverThrowClassify c3Commits
            s).bm.currentBatchSize = 2 := by
      have hf2 : floorMulNat 2 (2⁻¹ : ℚ) ≤ 2 := by
        have hq : (2⁻¹ : ℚ) = 1/2 := by norm_num
        rw [hq, floorMulNat_two_half]
        omega
      simp [loopStep, alwaysOverflow, adjustBatchSize, c3Cfg, c3Commits, h0, h2, hf2]
    have hrec : processLoop c3Cfg alwaysOverflow neverThrowClassify c3Commits
        (fuel + 1) s =
        processLoop c3Cfg alwaysOverflow neverThrowClassify c3Commits fuel
          (loopStep c3Cfg alwaysOverflow neverThrowClassify c3Commits s) := by
      simp [processLoop, h0, c3Commits]
    rw [hrec]
    exact c3_stuck_aux fuel _ hstep0.1 hstep0.2

/-- Counterexample to C3 as stated: with `minBatchSize = 2` (the source's
default) and a two-commit batch whose token estimate keeps exceeding the
threshold even at the minimum size, the loop never terminates — the
single-commit guard requires `batch.length === 1`
(commit-analyzer.ts, line 935), so a minimum-size batch of **two**
oversized commits is retried forever. -/
theorem adaptive_loop_not_terminating_at_min_two :
    ¬ loopTerminates c3Cfg alwaysOverflow neverThrowClassify c3Commits := by
  rintro ⟨fuel, s, hsome, -⟩
  rw [c3_stuck_aux fuel (initialLoopState c3Cfg) rfl rfl] at hsome
  exact Option.noConfusion hsome

/-- Packed lexicographic measure decreases when the cursor advances
(helper). -/
theorem measure_decreases_advance (len i i' size size' b : Nat)
    (h1 : i < i') (h2 : i' ≤ len) (h3 : size' ≤ b) :
    (len - i') * (b + 1) + size' < (len - i) * (b + 1) + size := by
  calc (len - i') * (b + 1) + size'
      ≤ (len - i') * (b + 1) + b := by omega
    _ < (len - i') * (b + 1) + (b + 1) := by omega
    _ = (len - i' + 1) * (b + 1) := by ring
    _ ≤ (len - i) * (b + 1) := Nat.mul_le_mul_right _ (by omega)
    _ ≤ (len - i) * (b + 1) + size := Nat.le_add_right _ _

/-- Decaying a size of at least `2` by a factor below `1` is a strict
shrink, even after clamping below at `1` (helper). -/
theorem max_one_floorMul_lt (size : Nat) (q : ℚ) (hq : q < 1) (h2 : 2 ≤ size) :
    max 1 (floorMulNat size q) < size :=
  max_lt_iff.mpr ⟨by omega, floorMulNat_lt_self size q (by omega) hq⟩

/-- A clamped decay either bottoms out at `1` or strictly shrinks
(helper). -/
theorem shrink_cases (size : Nat) (q : ℚ) (hq : q < 1) (hsz : 1 ≤ size) :
    max 1 (floorMulNat size q) = 1 ∨ max 1 (floorMulNat size q) < size := by
  by_cases h2 : 2 ≤ size
  · exact Or.inr (max_one_floorMul_lt size q hq h2)
  · have hs1 : size = 1 := by omega
    subst hs1
    have hf := floorMulNat_lt_self 1 q (by omega) hq
    left
    omega

/-- A failure transition taken at the minimum size `1` stays at the
minimum (helper). -/
theorem failure_after_min_stays_min (cfg : Config) (b : BMState)
    (hmin : cfg.minBatchSize = 1) (hb : b.currentBatchSize = cfg.minBatchSize) :
    (adjustBatchSize cfg b false false).currentBatchSize = cfg.minBatchSize := by
  have h1 := floorMulNat_lt_self b.currentBatchSize
    (min (4/5 : ℚ) (cfg.decayFactor + ((b.consecutiveFailures + 1 : Nat) : ℚ) * (1/10)))
    (by omega) (lt_of_le_of_lt (min_le_left _ _) (by norm_num))
  rw [adjustBatchSize_failure_eq]
  dsimp only
  omega

/-- A failure transition that does not land on the minimum size `1`
strictly shrinks the size and keeps it positive (helper). -/
theorem failure_size_shrinks (cfg : Config) (b : BMState)
    (hmin : cfg.minBatchSize = 1) (hb1 : 1 ≤ b.currentBatchSize)
    (hm : (adjustBatchSize cfg b false false).currentBatchSize ≠ cfg.minBatchSize) :
    (adjustBatchSize cfg b false false).currentBatchSize < b.currentBatchSize ∧
      1 ≤ (adjustBatchSize cfg b false false).currentBatchSize := by
  have he : min (4/5 : ℚ)
      (cfg.decayFactor + ((b.consecutiveFailures + 1 : Nat) : ℚ) * (1/10)) < 1 :=
    lt_of_le_of_lt (min_le_left _ _) (by norm_num)
  have heq : (adjustBatchSize cfg b false false).currentBatchSize =
      max 1 (floorMulNat b.currentBatchSize
        (min (4/5 : ℚ)
          (cfg.decayFactor + ((b.consecutiveFailures + 1 : Nat) : ℚ) * (1/10)))) := by
    rw [adjustBatchSize_failure_eq, hmin]
  rcases shrink_cases b.currentBatchSize _ he hb1 with h | h
  · rw [heq, hmin] at hm
    exact absurd h hm
  · constructor
    · rw [heq]
      exact h
    · rw [heq]
      exact Nat.le_max_left _ _

/-- A success transition keeps the size within `[min, sizeBound]`
(helper). -/
theorem adjustBatchSize_success_size_bounds (cfg : Config) (s : BMState) (b : Nat)
    (h1 : cfg.minBatchSize ≤ s.currentBatchSize) (h2 : s.currentBatchSize ≤ b)
    (hmaxb : cfg.maxBatchSize ≤ b) :
    cfg.minBatchSize ≤ (adjustBatchSize cfg s true false).currentBatchSize ∧
      (adjustBatchSize cfg s true false).currentBatchSize ≤ b := by
  rw [adjustBatchSize_success_eq]
  split_ifs with h
  · dsimp only
    constructor
    · omega
    · omega
  · exact ⟨h1, h2⟩

/-- Every loop iteration preserves the invariant and strictly decreases
the measure, provided `minBatchSize = 1` and the decay factor is below `1`
(helper). -/
theorem loopStep_progress (cfg : Config) (overflows : List EnrichedCommit → Bool)
    (classify : Nat → List EnrichedCommit → Except Unit (List ClassifiedCommit))
    (commits : List EnrichedCommit) (s : LoopState)
    (hmin : cfg.minBatchSize = 1) (hd1 : cfg.decayFactor < 1)
    (hInv : LoopInv cfg commits s) (hlt : s.i < commits.length) :
    LoopInv cfg commits (loopStep cfg overflows classify commits s) ∧
      loopMeasure cfg commits (loopStep cfg overflows classify commits s) <
        loopMeasure cfg commits s := by
  obtain ⟨hile, hszmin, hszB⟩ := hInv
  have hsz1 : 1 ≤ s.bm.currentBatchSize := hmin ▸ hszmin
  have hblen : ((commits.drop s.i).take s.bm.currentBatchSize).length =
      min s.bm.currentBatchSize (commits.length - s.i) := by
    simp
  have hb1 : 1 ≤ ((commits.drop s.i).take s.bm.currentBatchSize).length := by
    rw [hblen]
    omega
  have hbadd : s.i + ((commits.drop s.i).take s.bm.currentBatchSize).length ≤
      commits.length := by
    rw [hblen]
    omega
  have hbm1 : (adjustBatchSize cfg s.bm false true).currentBatchSize =
      max cfg.minBatchSize (floorMulNat s.bm.currentBatchSize cfg.decayFactor) := by
    rw [adjustBatchSize_overflow_eq]
  by_cases hov : overflows ((commits.drop s.i).take s.bm.currentBatchSize) = true
  · by_cases hg : (adjustBatchSize cfg s.bm false true).currentBatchSize =
          cfg.minBatchSize ∧
        ((commits.drop s.i).take s.bm.currentBatchSize).length = 1
    · cases hcl : classify s.calls
          (((commits.drop s.i).take s.bm.currentBatchSize).map
            fun c => { c with diff := c.diff.take 200 }) with
      | ok rs =>
        simp only [loopStep]
        rw [if_pos hov, if_pos hg, hcl]
        refine ⟨⟨?_, ?_, ?_⟩, ?_⟩
        · exact hbadd
        · exact hg.1.ge
        · show (adjustBatchSize cfg s.bm false true).currentBatchSize ≤ sizeBound cfg
          have h1 := hg.1
          omega
        · exact measure_decreases_advance commits.length s.i
            (s.i + ((commits.drop s.i).take s.bm.currentBatchSize).length)
            s.bm.currentBatchSize
            (adjustBatchSize cfg s.bm false true).currentBatchSize
            (sizeBound cfg) (by omega) hbadd
            (by have h1 := hg.1; omega)
      | error e =>
        by_cases hm : (adjustBatchSize cfg
              (adjustBatchSize cfg s.bm false true) false false).currentBatchSize =
            cfg.minBatchSize
        · simp only [loopStep]
          rw [if_pos hov, if_pos hg, hcl, if_pos hm]
          refine ⟨⟨?_, ?_, ?_⟩, ?_⟩
          · exact hbadd
          · exact hm.ge
          · show (adjustBatchSize cfg
                (adjustBatchSize cfg s.bm false true) false false).currentBatchSize ≤
              sizeBound cfg
            omega
          · exact measure_decreases_advance commits.length s.i
              (s.i + ((commits.drop s.i).take s.bm.currentBatchSize).length)
              s.bm.currentBatchSize
              (adjustBatchSize cfg
                (adjustBatchSize cfg s.bm false true) false false).currentBatchSize
              (sizeBound cfg) (by omega) hbadd (by omega)
        · exact absurd
            (failure_after_min_stays_min cfg
              (adjustBatchSize cfg s.bm false true) hmin hg.1) hm
    · have hsz2 : 2 ≤ s.bm.currentBatchSize := by
        by_contra hcon
        have hs1 : s.bm.currentBatchSize = 1 := by omega
        apply hg
        constructor
        · rw [hbm1, hmin, hs1]
          have hf := floorMulNat_lt_self 1 cfg.decayFactor (by omega) hd1
          omega
        · rw [hblen, hs1]
          omega
      have hshr : max 1 (floorMulNat s.bm.currentBatchSize cfg.decayFactor) <
          s.bm.currentBatchSize := max_one_floorMul_lt _ _ hd1 hsz2
      simp only [loopStep]
      rw [if_pos hov, if_neg hg]
      refine ⟨⟨?_, ?_, ?_⟩, ?_⟩
      · exact hile
      · show cfg.minBatchSize ≤ (adjustBatchSize cfg s.bm false true).currentBatchSize
        rw [hbm1]
        exact Nat.le_max_left _ _
      · show (adjustBatchSize cfg s.bm false true).currentBatchSize ≤ sizeBound cfg
        rw [hbm1, hmin]
        omega
      · show (commits.length - s.i) * (sizeBound cfg + 1) +
            (adjustBatchSize cfg s.bm false true).currentBatchSize <
          (commits.length - s.i) * (sizeBound cfg + 1) + s.bm.currentBatchSize
        rw [hbm1, hmin]
        omega
  · cases hcl : classify s.calls ((commits.drop s.i).take s.bm.currentBatchSize) with
    | ok rs =>
      have hbounds := adjustBatchSize_success_size_bounds cfg s.bm (sizeBound cfg)
        hszmin hszB (Nat.le_max_right _ _)
      simp only [loopStep]
      rw [if_neg hov, hcl]
      refine ⟨⟨?_, ?_, ?_⟩, ?_⟩
      · exact hbadd
      · exact hbounds.1
      · exact hbounds.2
      · exact measure_decreases_advance commits.length s.i
          (s.i + ((commits.drop s.i).take s.bm.currentBatchSize).length)
          s.bm.currentBatchSize
          (adjustBatchSize cfg s.bm true false).currentBatchSize
          (sizeBound cfg) (by omega) hbadd hbounds.2
    | error e =>
      by_cases hm : (adjustBatchSize cfg s.bm false false).currentBatchSize =
          cfg.minBatchSize
      · simp only [loopStep]
        rw [if_neg hov, hcl, if_pos hm]
        refine ⟨⟨?_, ?_, ?_⟩, ?_⟩
        · exact hbadd
        · exact hm.ge
        · show (adjustBatchSize cfg s.bm false false).currentBatchSize ≤ sizeBound cfg
          omega
        · exact measure_decreases_advance commits.length s.i
            (s.i + ((commits.drop s.i).take s.bm.currentBatchSize).length)
            s.bm.currentBatchSize
            (adjustBatchSize cfg s.bm false false).currentBatchSize
            (sizeBound cfg) (by omega) hbadd (by omega)
      · have hshr := failure_size_shrinks cfg s.bm hmin hsz1 hm
        simp only [loopStep]
        rw [if_neg hov, hcl, if_neg hm]
        refine ⟨⟨?_, ?_, ?_⟩, ?_⟩
        · exact hile
        · show cfg.minBatchSize ≤ (adjustBatchSize cfg s.bm false false).currentBatchSize
          omega
        · show (adjustBatchSize cfg s.bm false false).currentBatchSize ≤ sizeBound cfg
          omega
        · show (commits.length - s.i) * (sizeBound cfg + 1) +
              (adjustBatchSize cfg s.bm false false).currentBatchSize <
            (commits.length - s.i) * (sizeBound cfg + 1) + s.bm.currentBatchSize
          omega

/-- Bounded induction over the measure: from any invariant state the loop
finishes within some fuel, with the cursor at the end (helper). -/
theorem processLoop_reaches_end (cfg : Config)
    (overflows : List EnrichedCommit → Bool)
    (classify : Nat → List EnrichedCommit → Except Unit (List ClassifiedCommit))
    (commits : List EnrichedCommit)
    (hmin : cfg.minBatchSize = 1) (hd1 : cfg.decayFactor < 1) :
    ∀ (n : Nat) (s : LoopState), LoopInv cfg commits s →
      loopMeasure cfg commits s ≤ n →
      ∃ fuel s', processLoop cfg overflows classify commits fuel s = some s' ∧
        s'.i = commits.length
  | 0, s, hInv, hμ => by
    have h0 : (commits.length - s.i) * (sizeBound cfg + 1) = 0 := by
      simp only [loopMeasure] at hμ
      omega
    rcases Nat.mul_eq_zero.mp h0 with h | h
    · have hnle : ¬ (s.i < commits.length) := by omega
      refine ⟨1, s, ?_, ?_⟩
      · simp [processLoop, hnle]
      · have := hInv.1
        omega
    · omega
  | n + 1, s, hInv, hμ => by
    by_cases h : s.i < commits.length
    · have hp := loopStep_progress cfg overflows classify commits s hmin hd1 hInv h
      have hμ' : loopMeasure cfg commits
          (loopStep cfg overflows classify commits s) ≤ n := by omega
      obtain ⟨fuel, s', hfs, hi⟩ := processLoop_reaches_end cfg overflows classify
        commits hmin hd1 n (loopStep cfg overflows classify commits s) hp.1 hμ'
      refine ⟨fuel + 1, s', ?_, hi⟩
      simpa [processLoop, h] using hfs
    · refine ⟨1, s, by simp [processLoop, h], ?_⟩
      have := hInv.1
      omega

/-- C3 (amended): with `minBatchSize = 1` (and `min ≤ initial`,
`0 < decayFactor < 1`) the batch-processing loop terminates for every
finite commit list, every token estimator and every classification
oracle: the cursor reaches the end of the list, every commit having been
either classified or skipped.  As the counterexample shows, the claim
fails for `minBatchSize ≥ 2` (the repository default is `2`): the
single-commit guard does not cover a still-overflowing minimum-size batch
of two or more commits. -/
theorem adaptive_loop_terminates_at_min_one (cfg : Config)
    (overflows : List EnrichedCommit → Bool)
    (classify : Nat → List EnrichedCommit → Except Unit (List ClassifiedCommit))
    (commits : List EnrichedCommit)
    (hmin : cfg.minBatchSize = 1)
    (hinit : cfg.minBatchSize ≤ cfg.initialBatchSize)
    (_hd0 : (0:ℚ) < cfg.decayFactor) (hd1 : cfg.decayFactor < 1) :
    loopTerminates cfg overflows classify commits := by
  have hInv0 : LoopInv cfg commits (initialLoopState cfg) := by
    refine ⟨Nat.zero_le _, hinit, ?_⟩
    show cfg.initialBatchSize ≤ sizeBound cfg
    exact Nat.le_max_left _ _
  obtain ⟨fuel, s', h1, h2⟩ := processLoop_reaches_end cfg overflows classify
    commits hmin hd1 (loopMeasure cfg commits (initialLoopState cfg))
    (initialLoopState cfg) hInv0 le_rfl
  exact ⟨fuel, s', h1, h2⟩

/-- Witness for the amended C3: a concrete `minBatchSize = 1`
configuration, the two-commit list, an estimator that never overflows and
a non-throwing oracle. -/
theorem adaptive_loop_terminates_at_min_one_witness :
    (c3wCfg.minBatchSize = 1 ∧ c3wCfg.minBatchSize ≤ c3wCfg.initialBatchSize ∧
      (0:ℚ) < c3wCfg.decayFactor ∧ c3wCfg.decayFactor < 1) ∧
    loopTerminates c3wCfg neverOverflow neverThrowClassify c3Commits :=
  ⟨⟨rfl, by norm_num [c3wCfg], by norm_num [c3wCfg], by norm_num [c3wCfg]⟩,
    adaptive_loop_terminates_at_min_one c3wCfg neverOverflow neverThrowClassify
      c3Commits rfl (by norm_num [c3wCfg]) (by norm_num [c3wCfg])
      (by norm_num [c3wCfg])⟩

/-- Witness for C4: two commits with a requested batch size of `16` — the
cursor advances by the actual batch length `2`, not by `16`. -/
theorem cursor_advances_witness :
    (loopStep c1Cfg neverOverflow neverThrowClassify c3Commits
        (initialLoopState c1Cfg)).i =
      (initialLoopState c1Cfg).i +
        ((c3Commits.drop (initialLoopState c1Cfg).i).take
          (initialLoopState c1Cfg).bm.currentBatchSize).length :=
  (cursor_advances_by_actual_batch_length c1Cfg neverOverflow neverThrowClassify
      c3Commits (initialLoopState c1Cfg)).2.1 rfl _ rfl

end GitCommitCategories
